import Mathlib

/-
Shallow embedding of `src/Maybe.h` (class `Maybe<T>`).

The C++ class stores a raw pointer `T* value` and a `std::allocator<T>`.
We model the allocator's memory as a bump allocator: `next` is the next
fresh address, `store` holds the raw bits at each address, and `live`
records whether the object at an address is currently constructed
(`alloc.construct` sets it, `alloc.destroy` clears it; the bits remain,
as in real memory).  A `Maybe T` is just the pointer field: `none`
models `nullptr`.

The compile-time facts of the C++ template machinery appear as explicit
parameters of the equality operation: `sameType` embeds
`std::is_same<T, oT>::value` and `eqExists` embeds
`Maybe_Tests::EqualExists<T, oT>::value`, with `cmp` the underlying
`operator==` between values of the two element types (used only on the
`eqExists` path, exactly as SFINAE selects the overload of
`doEqualComparison`).
-/

namespace MaybeH

/-- Pointwise function update: the write performed at one address by
`alloc.construct`, `alloc.destroy`, or an assignment through the pointer. -/
def upd {α : Type} (f : Nat → α) (p : Nat) (v : α) : Nat → α :=
  fun q => if q = p then v else f q

/-- The allocator's memory for objects of type `T`, modelling
`std::allocator<T>`: `next` is the next fresh address, `store` the raw
bits at each address, `live` whether the object at an address is
currently constructed. -/
structure Mem (T : Type) where
  next : Nat
  store : Nat → T
  live : Nat → Bool

/-- Embeds `alloc.allocate(1)`: hands out a fresh address. -/
def Mem.allocate {T : Type} (σ : Mem T) : Nat × Mem T :=
  (σ.next, { σ with next := σ.next + 1 })

/-- Embeds `alloc.construct(p, v)`: constructs a `T` with value `v` at
address `p`. -/
def Mem.construct {T : Type} (σ : Mem T) (p : Nat) (v : T) : Mem T :=
  { σ with store := upd σ.store p v, live := upd σ.live p true }

/-- Embeds `alloc.destroy(p)`: runs the destructor of the object at `p`;
the raw bits stay behind. -/
def Mem.destroy {T : Type} (σ : Mem T) (p : Nat) : Mem T :=
  { σ with live := upd σ.live p false }

/-- Embeds writing through the pointer with `T`'s assignment operator
(the `*value = other;` branch of the bare-value `operator=`). -/
def Mem.assignAt {T : Type} (σ : Mem T) (p : Nat) (v : T) : Mem T :=
  { σ with store := upd σ.store p v }

/-- Embeds `class Maybe<T>`: the single data member `T* value`;
`none` models `nullptr`. -/
structure Maybe (T : Type) where
  value : Option Nat

/-- Embeds `operator bool() const`: `return value != nullptr;`. -/
def Maybe.toBool {T : Type} (m : Maybe T) : Bool :=
  m.value.isSome

/-- Embeds `class null_maybe_exception`, the exception thrown when a
value is extracted from an empty `Maybe`. -/
inductive null_maybe_exception : Type where
  | mk : null_maybe_exception

/-- Embeds `T& operator()() const`: `if (*this) return *value; else
throw null_maybe_exception();`. -/
def Maybe.call {T : Type} (σ : Mem T) (m : Maybe T) : Except null_maybe_exception T :=
  match m.value with
  | some p => .ok (σ.store p)
  | none => .error null_maybe_exception.mk

/-- Embeds the forwarding constructor `Maybe<T>(const Ts&... args)` at a
single value argument: `value = alloc.allocate(1); alloc.construct(value, args...);`. -/
def Maybe.mkValue {T : Type} (σ : Mem T) (v : T) : Maybe T × Mem T :=
  let a := σ.allocate
  (⟨some a.1⟩, a.2.construct a.1 v)

/-- Embeds the default constructor `Maybe<T>()`: `value = nullptr;`. -/
def Maybe.mkEmpty (T : Type) : Maybe T :=
  ⟨none⟩

/-- Embeds `Maybe<T>(const std::nullptr_t&)`: `value = null_p;`. -/
def Maybe.mkNull (T : Type) : Maybe T :=
  ⟨none⟩

/-- Embeds the move constructor `Maybe<T>(Maybe<T>&& other)`:
`value = other.value; other.value = nullptr;`.  Returns
((destination, source after the move), memory); the memory is untouched:
no allocation, construction, or destruction happens. -/
def Maybe.moveConstruct {T : Type} (σ : Mem T) (other : Maybe T) :
    (Maybe T × Maybe T) × Mem T :=
  ((⟨other.value⟩, ⟨none⟩), σ)

/-- Embeds the move assignment `operator=(Maybe<T>&& other)`:
destroy the destination's object if present, then
`value = other.value; other.value = nullptr;`.  Returns
((destination, source after the move), memory). -/
def Maybe.moveAssign {T : Type} (σ : Mem T) (dest other : Maybe T) :
    (Maybe T × Maybe T) × Mem T :=
  let σ₁ := match dest.value with
    | some p => σ.destroy p
    | none => σ
  ((⟨other.value⟩, ⟨none⟩), σ₁)

/-- Embeds the copy constructor `Maybe<T>(const Maybe<T>& other)`.
Modelled from the spec: the source's body at `src/Maybe.h:116`,
`alloc.construct(value, *other);`, is ill-formed because `Maybe<T>` has
no `operator*` (any instantiation of the copy constructor fails to
compile).  Following the spec ("if source is `Present`, the destination
constructs an independent T copy") and the constructor's own intent, a
fresh object is constructed from the source's contained value; an empty
source yields an empty copy. -/
def Maybe.copyConstruct {T : Type} (σ : Mem T) (other : Maybe T) : Maybe T × Mem T :=
  match other.value with
  | some p =>
    let a := σ.allocate
    (⟨some a.1⟩, a.2.construct a.1 (σ.store p))
  | none => (⟨none⟩, σ)

/-- Embeds the bare-value assignment `operator=(const O& other)` at
`O = T`: if the container is empty, allocate and construct from the
value; otherwise assign through the pointer (`*value = other;`). -/
def Maybe.assignValue {T : Type} (σ : Mem T) (dest : Maybe T) (v : T) : Maybe T × Mem T :=
  match dest.value with
  | none =>
    let a := σ.allocate
    (⟨some a.1⟩, a.2.construct a.1 v)
  | some p => (⟨some p⟩, σ.assignAt p v)

/-- Embeds `operator=(const std::nullptr_t&)`: destroy the owned object
if present, then `value = null_p;`. -/
def Maybe.assignNull {T : Type} (σ : Mem T) (dest : Maybe T) : Maybe T × Mem T :=
  let σ₁ := match dest.value with
    | some p => σ.destroy p
    | none => σ
  (⟨none⟩, σ₁)

/-- Embeds the two SFINAE overloads of `doEqualComparison`: when
`eqExists` (i.e. `Maybe_Tests::EqualExists<T, oT>::value`) holds, the
overload `return (*this)() == other();` is selected, which extracts both
values through the throwing `operator()` and compares them with the
underlying `operator==` (`cmp`); otherwise the overload
`return false;` is selected and `cmp` is never consulted. -/
def Maybe.doEqualComparison {T U : Type} (eqExists : Bool) (cmp : T → U → Bool)
    (σ₁ : Mem T) (σ₂ : Mem U) (a : Maybe T) (b : Maybe U) :
    Except null_maybe_exception Bool :=
  if eqExists then do
    let x ← Maybe.call σ₁ a
    let y ← Maybe.call σ₂ b
    pure (cmp x y)
  else
    pure false

/-- Embeds `operator==(const Maybe<oT>& other)`: mixed presence is
false; both empty yields `std::is_same<T, oT>::value` (the `sameType`
parameter); both present delegates to `doEqualComparison`. -/
def Maybe.eq {T U : Type} (sameType eqExists : Bool) (cmp : T → U → Bool)
    (σ₁ : Mem T) (σ₂ : Mem U) (a : Maybe T) (b : Maybe U) :
    Except null_maybe_exception Bool :=
  if (a.toBool && !b.toBool) || (!a.toBool && b.toBool) then
    .ok false
  else if !a.toBool && !b.toBool then
    .ok sameType
  else
    Maybe.doEqualComparison eqExists cmp σ₁ σ₂ a b

/-- Embeds `operator!=(const Maybe<oT>& other)`:
`return !(*this == other);`. -/
def Maybe.ne {T U : Type} (sameType eqExists : Bool) (cmp : T → U → Bool)
    (σ₁ : Mem T) (σ₂ : Mem U) (a : Maybe T) (b : Maybe U) :
    Except null_maybe_exception Bool := do
  let r ← Maybe.eq sameType eqExists cmp σ₁ σ₂ a b
  pure (!r)

/-- A concrete memory over `Int`, used to evaluate the operations at
concrete inputs. -/
def mem0 : Mem Int :=
  ⟨0, fun _ => 0, fun _ => false⟩

/-- C1: equality follows the spec's rule: if exactly one side is present
the result is `false`; if both are empty the result is exactly
`std::is_same<T, oT>::value` (the `sameType` parameter — true precisely
when the element types coincide, so empty containers of different
element types compare unequal); if both are present and the underlying
comparison exists, the result is the underlying value comparison of the
two owned values. -/
theorem maybe_eq_truth_table {T U : Type} (sameType eqExists : Bool) (cmp : T → U → Bool)
    (σ₁ : Mem T) (σ₂ : Mem U) (a : Maybe T) (b : Maybe U) :
    (a.toBool ≠ b.toBool →
      Maybe.eq sameType eqExists cmp σ₁ σ₂ a b = .ok false) ∧
    (a.toBool = false → b.toBool = false →
      Maybe.eq sameType eqExists cmp σ₁ σ₂ a b = .ok sameType) ∧
    (∀ p q, a.value = some p → b.value = some q →
      Maybe.eq sameType true cmp σ₁ σ₂ a b = .ok (cmp (σ₁.store p) (σ₂.store q))) := by
  obtain ⟨va⟩ := a
  obtain ⟨vb⟩ := b
  cases va <;> cases vb <;>
    simp [Maybe.eq, Maybe.toBool, Maybe.doEqualComparison, Maybe.call, Bind.bind,
      Except.bind, Pure.pure, Except.pure]

theorem maybe_eq_truth_table_witness :
    Maybe.eq true true (fun a b : Int => a == b) mem0 mem0 (Maybe.mk none) (Maybe.mk none) =
      .ok true :=
  (maybe_eq_truth_table true true (fun a b : Int => a == b) mem0 mem0
    (Maybe.mk none) (Maybe.mk none)).2.1 rfl rfl

/-- C2: when no underlying comparison exists between the element types
(`eqExists = false`), comparing two present containers evaluates to
`Except.ok false` for every candidate comparison function and every
memory — the `false` is selected by the SFINAE overload, never reaching
a runtime comparison; when the comparison exists (`eqExists = true`),
the comparison of two present containers delegates to the underlying
value equality. -/
theorem maybe_eq_capability {T U : Type} (sameType : Bool) (cmp : T → U → Bool)
    (σ₁ : Mem T) (σ₂ : Mem U) (a : Maybe T) (b : Maybe U) :
    (a.toBool = true → b.toBool = true →
      Maybe.eq sameType false cmp σ₁ σ₂ a b = .ok false) ∧
    (∀ p q, a.value = some p → b.value = some q →
      Maybe.eq sameType true cmp σ₁ σ₂ a b = .ok (cmp (σ₁.store p) (σ₂.store q))) := by
  obtain ⟨va⟩ := a
  obtain ⟨vb⟩ := b
  cases va <;> cases vb <;>
    simp [Maybe.eq, Maybe.toBool, Maybe.doEqualComparison, Maybe.call, Bind.bind,
      Except.bind, Pure.pure, Except.pure]

theorem maybe_eq_capability_witness :
    Maybe.eq true false (fun (_ : Int) (_ : Int) => true) mem0 mem0
      (Maybe.mk (some 0)) (Maybe.mk (some 0)) = .ok false :=
  (maybe_eq_capability true (fun (_ : Int) (_ : Int) => true) mem0 mem0
    (Maybe.mk (some 0)) (Maybe.mk (some 0))).1 rfl rfl

/-- C3: extraction on an empty container raises `null_maybe_exception`;
extraction on a present container never raises and returns the owned
value; and `null_maybe_exception` has exactly one inhabitant, so this is
the only error value the container can ever produce. -/
theorem call_raises_iff_empty {T : Type} (σ : Mem T) (a : Maybe T) :
    (a.toBool = false → Maybe.call σ a = .error null_maybe_exception.mk) ∧
    (∀ p, a.value = some p → Maybe.call σ a = .ok (σ.store p)) ∧
    (∀ e₁ e₂ : null_maybe_exception, e₁ = e₂) := by
  obtain ⟨va⟩ := a
  refine ⟨?_, ?_, fun e₁ e₂ => by cases e₁; cases e₂; rfl⟩
  · cases va <;> simp [Maybe.toBool, Maybe.call]
  · intro p hp
    cases va <;> simp_all [Maybe.call]

theorem call_raises_iff_empty_witness :
    Maybe.call mem0 (Maybe.mk none) = .error null_maybe_exception.mk :=
  (call_raises_iff_empty mem0 (Maybe.mk none)).1 rfl

/-- C4: move construction hands the destination the source's pointer,
nulls the source, and leaves the memory untouched (no value is copied);
move assignment does the same with the pointer, keeps every stored value
unchanged (no value copy), destroys the destination's previously owned
object first (its address is no longer live), and when the source was
present the destination afterwards extracts exactly the source's old
value; a moved-from empty source leaves both containers empty. -/
theorem move_semantics {T : Type} (σ : Mem T) (dest other : Maybe T) :
    ((Maybe.moveConstruct σ other).1.1.value = other.value ∧
      (Maybe.moveConstruct σ other).1.2.value = none ∧
      (Maybe.moveConstruct σ other).2 = σ) ∧
    ((Maybe.moveAssign σ dest other).1.1.value = other.value ∧
      (Maybe.moveAssign σ dest other).1.2.value = none ∧
      (Maybe.moveAssign σ dest other).2.store = σ.store) ∧
    (∀ p, dest.value = some p → (Maybe.moveAssign σ dest other).2.live p = false) ∧
    (∀ q, other.value = some q →
      Maybe.call (Maybe.moveAssign σ dest other).2 (Maybe.moveAssign σ dest other).1.1 =
        .ok (σ.store q)) := by
  obtain ⟨vd⟩ := dest
  obtain ⟨vo⟩ := other
  refine ⟨⟨rfl, rfl, rfl⟩, ?_⟩
  cases vd <;> cases vo <;>
    simp [Maybe.moveAssign, Mem.destroy, Maybe.call, Maybe.toBool, upd]

theorem move_semantics_witness :
    (Maybe.moveAssign mem0 (Maybe.mk (some 0)) (Maybe.mk (some 1))).2.live 0 = false :=
  ((move_semantics mem0 (Maybe.mk (some 0)) (Maybe.mk (some 1))).2.2.1) 0 rfl

/-- C5: for the deep copy that the spec (and the copy constructor's own
documentation) prescribes: copying an empty container yields an empty
container and leaves the memory untouched; copying a present container
allocates a fresh address, the copy extracts the same value as the
original, and — since the source's address was previously allocated
(`p < σ.next`) — the original still extracts that value, and
subsequently assigning any value to the copy does not change the value
stored at the original's address. -/
theorem copy_deep_independent {T : Type} (σ : Mem T) (other : Maybe T) :
    (other.value = none → Maybe.copyConstruct σ other = (⟨none⟩, σ)) ∧
    (∀ p, other.value = some p →
      (Maybe.copyConstruct σ other).1.value = some σ.next ∧
      Maybe.call (Maybe.copyConstruct σ other).2 (Maybe.copyConstruct σ other).1 =
        .ok (σ.store p) ∧
      (p < σ.next →
        Maybe.call (Maybe.copyConstruct σ other).2 other = .ok (σ.store p) ∧
        ∀ w, (Maybe.assignValue (Maybe.copyConstruct σ other).2
          (Maybe.copyConstruct σ other).1 w).2.store p = σ.store p)) := by
  obtain ⟨vo⟩ := other
  constructor
  · intro h
    obtain rfl : vo = none := h
    rfl
  · intro p hp
    obtain rfl : vo = some p := hp
    refine ⟨rfl, ?_, ?_⟩
    · simp [Maybe.copyConstruct, Mem.allocate, Mem.construct, Maybe.call, upd]
    · intro hlt
      have hne : ¬ (p = σ.next) := Nat.ne_of_lt hlt
      constructor
      · simp [Maybe.copyConstruct, Mem.allocate, Mem.construct, Maybe.call, upd, hne]
      · intro w
        simp [Maybe.copyConstruct, Mem.allocate, Mem.construct, Maybe.assignValue,
          Mem.assignAt, upd, hne]

theorem copy_deep_independent_witness :
    Maybe.call (Maybe.copyConstruct (Mem.mk 1 (fun _ => (5 : Int)) (upd (fun _ => false) 0 true))
        (Maybe.mk (some 0))).2
      (Maybe.copyConstruct (Mem.mk 1 (fun _ => (5 : Int)) (upd (fun _ => false) 0 true))
        (Maybe.mk (some 0))).1 = .ok 5 :=
  ((copy_deep_independent (Mem.mk 1 (fun _ => (5 : Int)) (upd (fun _ => false) 0 true))
    (Maybe.mk (some 0))).2 0 rfl).2.1

/-- C6: assigning a bare value `v` to a container in any prior state
leaves it present: the presence test afterwards is true and extraction
yields exactly `v`. -/
theorem assign_value_present {T : Type} (σ : Mem T) (dest : Maybe T) (v : T) :
    (Maybe.assignValue σ dest v).1.toBool = true ∧
    Maybe.call (Maybe.assignValue σ dest v).2 (Maybe.assignValue σ dest v).1 = .ok v := by
  obtain ⟨vd⟩ := dest
  cases vd <;>
    simp [Maybe.assignValue, Mem.allocate, Mem.construct, Mem.assignAt, Maybe.toBool,
      Maybe.call, upd]

/-- C7: assigning the null marker to a container in any prior state
leaves it empty: the presence test afterwards is false, extraction
afterwards raises `null_maybe_exception`, and the previously owned
object, if any, has been destroyed (its address is no longer live). -/
theorem assign_null_empty {T : Type} (σ : Mem T) (dest : Maybe T) :
    (Maybe.assignNull σ dest).1.toBool = false ∧
    Maybe.call (Maybe.assignNull σ dest).2 (Maybe.assignNull σ dest).1 =
      .error null_maybe_exception.mk ∧
    (∀ p, dest.value = some p → (Maybe.assignNull σ dest).2.live p = false) := by
  obtain ⟨vd⟩ := dest
  cases vd <;>
    simp [Maybe.assignNull, Mem.destroy, Maybe.toBool, Maybe.call, upd]

theorem assign_null_empty_witness :
    (Maybe.assignNull mem0 (Maybe.mk (some 0))).2.live 0 = false :=
  ((assign_null_empty mem0 (Maybe.mk (some 0))).2.2) 0 rfl

/-- C8: constructing a container from a value `v` via the forwarding
constructor yields a present container (the presence test is true) whose
extraction returns exactly `v` — the construct-then-extract
round-trip. -/
theorem mk_value_roundtrip {T : Type} (σ : Mem T) (v : T) :
    (Maybe.mkValue σ v).1.toBool = true ∧
    Maybe.call (Maybe.mkValue σ v).2 (Maybe.mkValue σ v).1 = .ok v := by
  constructor
  · rfl
  · simp [Maybe.mkValue, Mem.allocate, Mem.construct, Maybe.call, upd]

/-- C9: for every pair of containers, in any states and for every
combination of the compile-time facts, the inequality operator returns
exactly the boolean negation of the result of the equality operator. -/
theorem ne_negates_eq {T U : Type} (sameType eqExists : Bool) (cmp : T → U → Bool)
    (σ₁ : Mem T) (σ₂ : Mem U) (a : Maybe T) (b : Maybe U) :
    Maybe.ne sameType eqExists cmp σ₁ σ₂ a b =
      Except.map (fun r => !r) (Maybe.eq sameType eqExists cmp σ₁ σ₂ a b) := by
  unfold Maybe.ne
  cases hE : Maybe.eq sameType eqExists cmp σ₁ σ₂ a b <;>
    simp [Except.map, Bind.bind, Except.bind, Pure.pure, Except.pure]

/-- C10: the equality operator never raises: for every pair of
containers in any states it evaluates to `Except.ok` of some boolean,
because the value-comparison path (which extracts through the throwing
`operator()`) is reached only after both sides are verified present —
while `doEqualComparison` itself, called on an empty left operand with
the comparison capability present, does hit the error branch, showing
that the presence guard in the equality operator is what makes it
unreachable. -/
theorem eq_never_raises {T U : Type} (sameType eqExists : Bool) (cmp : T → U → Bool)
    (σ₁ : Mem T) (σ₂ : Mem U) (a : Maybe T) (b : Maybe U) :
    (∃ r : Bool, Maybe.eq sameType eqExists cmp σ₁ σ₂ a b = .ok r) ∧
    Maybe.doEqualComparison true cmp σ₁ σ₂ (Maybe.mk none) b =
      .error null_maybe_exception.mk := by
  obtain ⟨va⟩ := a
  obtain ⟨vb⟩ := b
  constructor
  · cases va <;> cases vb <;> cases eqExists <;>
      simp [Maybe.eq, Maybe.toBool, Maybe.doEqualComparison, Maybe.call, Bind.bind,
        Except.bind, Pure.pure, Except.pure]
  · rfl

end MaybeH
